import Mathlib

/-!
Verification development for the azureSMTPwithOAuth SMTP relay (smtp.go).

Strings are modelled as Lean strings; the Go byte-level operations used by
the relay coincide with character-level operations on the ASCII inputs the
protocol handles, and lengths are counted in characters.  Each definition
carries a comment pointing at the source lines it embeds.  Network and
standard-library effects (socket reads, the HTTP clients, the MIME lexer)
are abstracted: the socket is a list of received raw lines, an HTTP
exchange is its final response, and a multipart body is the list of parts
the lexer would yield.
-/

namespace AzureSMTP

/-- Character class used by Go strings.TrimSpace / strings.Fields
(ASCII white space). -/
def goIsSpace (c : Char) : Bool :=
  c == ' ' || c == '\t' || c == '\n' || c == '\r' || c == '\x0b' || c == '\x0c'

/-- Model of Go strings.TrimSpace restricted to ASCII white space. -/
def goTrimSpace (s : String) : String :=
  String.mk (((s.toList.dropWhile goIsSpace).reverse.dropWhile goIsSpace).reverse)

/-- Model of Go strings.TrimRight(s, "\r\n"): drop trailing CR/LF characters. -/
def goTrimRightCRLF (s : String) : String :=
  String.mk ((s.toList.reverse.dropWhile (fun c => c == '\r' || c == '\n')).reverse)

/-- Model of Go strings.ToUpper (ASCII case mapping). -/
def goToUpper (s : String) : String := String.mk (s.toList.map Char.toUpper)

/-- Model of Go strings.ToLower (ASCII case mapping). -/
def goToLower (s : String) : String := String.mk (s.toList.map Char.toLower)

/-- Model of Go strings.HasPrefix. -/
def goHasPrefix (s pre : String) : Bool := pre.toList.isPrefixOf s.toList

/-- Check whether the first list occurs as a contiguous run of the second. -/
def listInfix (sub : List Char) : List Char → Bool
  | [] => sub.isEmpty
  | c :: cs => sub.isPrefixOf (c :: cs) || listInfix sub cs

/-- Substring containment, modelling Go strings.Contains. -/
def goContainsSub (s sub : String) : Bool := listInfix sub.toList s.toList

/-- Accumulator-based splitter behind goFields. -/
def goFieldsAux (acc : List Char) : List Char → List (List Char)
  | [] => if acc.isEmpty then [] else [acc.reverse]
  | c :: cs =>
    if goIsSpace c then
      if acc.isEmpty then goFieldsAux [] cs else acc.reverse :: goFieldsAux [] cs
    else goFieldsAux (c :: acc) cs

/-- Model of Go strings.Fields: split around runs of white space. -/
def goFields (s : String) : List String := (goFieldsAux [] s.toList).map String.mk

/-- Index of the last occurrence of a character, used for
strings.LastIndex(email, "@") in isValidEmail. -/
def lastIdxAux (c : Char) : List Char → Option Nat
  | [] => none
  | d :: ds =>
    match lastIdxAux c ds with
    | some i => some (i + 1)
    | none => if d == c then some 0 else none

/-- Model of Go strings.LastIndex for a one-character needle; none plays the
role of the Go result -1. -/
def lastIndexOfChar (s : String) (c : Char) : Option Nat := lastIdxAux c s.toList

/-- Model of Go strings.Index for a one-character needle. -/
def indexOfChar (s : String) (c : Char) : Option Nat :=
  s.toList.findIdx? (fun d => d == c)

/-- isValidEmail, embedded from smtp.go lines 466-484: length in 1..254,
the last at-sign neither first nor last, local part at most 64 characters,
domain at most 253 characters and containing a dot. -/
def isValidEmail (email : String) : Bool :=
  let cs := email.toList
  let n := cs.length
  if n > 254 ∨ n = 0 then false
  else
    match lastIndexOfChar email '@' with
    | none => false
    | some atIdx =>
      if atIdx = 0 ∨ atIdx ≥ n - 1 then false
      else
        let localPart := cs.take atIdx
        let domain := cs.drop (atIdx + 1)
        if localPart.length > 64 ∨ domain.length > 253 then false
        else domain.contains '.'

/-- Validity predicate written from the words of claim C6, for comparison
with the implemented isValidEmail: non-empty, at most 254 characters,
exactly one at-sign, local part 1-64 characters, domain 1-253 characters
containing at least one dot. -/
def specValidEmail (email : String) : Bool :=
  let cs := email.toList
  let n := cs.length
  if n = 0 ∨ n > 254 then false
  else if (cs.filter (fun c => c == '@')).length ≠ 1 then false
  else
    match cs.findIdx? (fun c => c == '@') with
    | none => false
    | some i =>
      let localPart := cs.take i
      let domain := cs.drop (i + 1)
      if localPart.length = 0 ∨ localPart.length > 64 then false
      else if domain.length = 0 ∨ domain.length > 253 then false
      else domain.contains '.'

/-- extractAddress, embedded from smtp.go lines 487-499: prefer the text
between the first angle brackets; otherwise split at the first colon and
trim the remainder; otherwise empty. -/
def extractAddress (line : String) : String :=
  let cs := line.toList
  let fallback :=
    match indexOfChar line ':' with
    | none => ""
    | some i => goTrimSpace (String.mk (cs.drop (i + 1)))
  match indexOfChar line '<', indexOfChar line '>' with
  | some s, some e => if e > s then String.mk ((cs.drop (s + 1)).take (e - s - 1)) else fallback
  | _, _ => fallback

/-- Value of a standard base64 alphabet character. -/
def b64Index (c : Char) : Option Nat :=
  if 'A' ≤ c ∧ c ≤ 'Z' then some (c.toNat - 65)
  else if 'a' ≤ c ∧ c ≤ 'z' then some (c.toNat - 97 + 26)
  else if '0' ≤ c ∧ c ≤ '9' then some (c.toNat - 48 + 52)
  else if c = '+' then some 62
  else if c = '/' then some 63
  else none

/-- Decode base64 four-character quanta with trailing padding, as
encoding/base64 StdEncoding does; bytes are represented as Nat values. -/
def b64DecodeQuanta : List Char → Except String (List Nat)
  | [] => .ok []
  | a :: b :: c :: d :: rest =>
    match b64Index a, b64Index b with
    | some va, some vb =>
      if c = '=' then
        if d = '=' ∧ rest = [] then .ok [va * 4 + vb / 16]
        else .error "illegal base64 data"
      else
        match b64Index c with
        | some vc =>
          if d = '=' then
            if rest = [] then .ok [va * 4 + vb / 16, (vb % 16) * 16 + vc / 4]
            else .error "illegal base64 data"
          else
            match b64Index d with
            | some vd =>
              match b64DecodeQuanta rest with
              | .ok tail =>
                .ok ([va * 4 + vb / 16, (vb % 16) * 16 + vc / 4, (vc % 4) * 64 + vd] ++ tail)
              | .error e => .error e
            | none => .error "illegal base64 data"
        | none => .error "illegal base64 data"
    | _, _ => .error "illegal base64 data"
  | _ => .error "illegal base64 data"

/-- decodeBase64WithError, embedded from smtp.go lines 698-704 on top of
encoding/base64 StdEncoding.DecodeString (which skips CR and LF and
requires padded four-character quanta). -/
def decodeBase64WithError (s : String) : Except String String :=
  match b64DecodeQuanta (s.toList.filter (fun c => ¬ (c == '\r' || c == '\n'))) with
  | .error e => .error ("base64 decode failed: " ++ e)
  | .ok bytes => .ok (String.mk (bytes.map Char.ofNat))

/-- Character of a base64 value (standard alphabet). -/
def b64Char (n : Nat) : Char :=
  if n < 26 then Char.ofNat (65 + n)
  else if n < 52 then Char.ofNat (97 + n - 26)
  else if n < 62 then Char.ofNat (48 + n - 52)
  else if n = 62 then '+'
  else '/'

/-- Standard padded base64 encoding of a byte list, as
encoding/base64 StdEncoding.EncodeToString. -/
def b64EncodeBytes : List Nat → List Char
  | [] => []
  | [a] => [b64Char (a / 4), b64Char (a % 4 * 16), '=', '=']
  | [a, b] => [b64Char (a / 4), b64Char (a % 4 * 16 + b / 16), b64Char (b % 16 * 4), '=']
  | a :: b :: c :: rest =>
    b64Char (a / 4) :: b64Char (a % 4 * 16 + b / 16) ::
      b64Char (b % 16 * 4 + c / 64) :: b64Char (c % 64) :: b64EncodeBytes rest

/-- Model of base64.StdEncoding.EncodeToString over a character string. -/
def encodeBase64 (s : String) : String :=
  String.mk (b64EncodeBytes (s.toList.map Char.toNat))

/-- Hexadecimal digit value for the quoted-printable decoder. -/
def hexVal (c : Char) : Option Nat :=
  if '0' ≤ c ∧ c ≤ '9' then some (c.toNat - 48)
  else if 'A' ≤ c ∧ c ≤ 'F' then some (c.toNat - 55)
  else if 'a' ≤ c ∧ c ≤ 'f' then some (c.toNat - 87)
  else none

/-- Quoted-printable decoding, modelling mime/quotedprintable: an equals
sign introduces either a soft line break or two hex digits. -/
def qpDecode : List Char → Except String (List Char)
  | [] => .ok []
  | '=' :: rest =>
    match rest with
    | '\r' :: '\n' :: t =>
      match qpDecode t with
      | .ok u => .ok u
      | .error e => .error e
    | '\n' :: t =>
      match qpDecode t with
      | .ok u => .ok u
      | .error e => .error e
    | h1 :: h2 :: t =>
      match hexVal h1, hexVal h2 with
      | some a, some b =>
        match qpDecode t with
        | .ok u => .ok (Char.ofNat (a * 16 + b) :: u)
        | .error e => .error e
      | _, _ => .error "quotedprintable: invalid hex"
    | _ => .error "quotedprintable: truncated escape"
  | c :: rest =>
    match qpDecode rest with
    | .ok u => .ok (c :: u)
    | .error e => .error e

/-- decodeMessage, embedded from smtp.go lines 612-625: select the decoder by
the content-transfer-encoding string; read errors are wrapped. -/
def decodeMessage (c : String) (r : String) : Except String String :=
  let decoded : Except String String :=
    if c = "base64" then decodeBase64WithError r
    else if c = "quoted-printable" then
      match qpDecode r.toList with
      | .ok u => .ok (String.mk u)
      | .error e => .error e
    else .ok r
  match decoded with
  | .error e => .error ("failed to read part: " ++ e)
  | .ok u => .ok u

/-- Session-local variables of handleSMTPConnection (smtp.go lines 163-166). -/
structure SessionSt where
  username : String
  password : String
  authenticated : Bool
  mailFrom : String
  rcptTo : List String
deriving Repr, DecidableEq

/-- State of a freshly accepted connection. -/
def initialSession : SessionSt :=
  { username := "", password := "", authenticated := false, mailFrom := "", rcptTo := [] }

/-- Environment of a session: the configuration fields the handler reads and
the effectful collaborators (token cache, message parser, Graph submission),
abstracted as result-returning functions. -/
structure Env where
  maxMessageSize : Int
  fallbackUser : String
  fallbackPass : String
  authToken : String → String → Except String String
  parseMsg : String → Except String Unit
  sendMail : String → String → Except String Unit

/-- Result of one outer-loop iteration of handleSMTPConnection: the reply
lines written, the session variables after the iteration, the input lines
left unconsumed, and whether the loop continues (false models the Go
return, which closes the connection). -/
structure StepOut where
  replies : List String
  st : SessionSt
  rem : List String
  cont : Bool
deriving Repr, DecidableEq

/-- Result of the DATA reading loop (smtp.go lines 361-392). -/
inductive DataRead where
  | eof
  | tooLarge (rem : List String)
  | done (buffer : String) (rem : List String)
deriving Repr, DecidableEq

/-- Drain loop after an oversized message (smtp.go lines 380-385): discard
lines until the terminator or the end of input. -/
def drain : List String → List String
  | [] => []
  | l :: rest => if goTrimSpace l == "." then rest else drain rest

/-- DATA reading loop, embedded from smtp.go lines 361-392: stop at a lone
dot, count each raw line into the running size, and on exceeding the limit
drain the rest; otherwise append the raw line (dots included) to the
buffer. -/
def dataLoop (maxSize : Int) : Int → String → List String → DataRead
  | _, _, [] => .eof
  | size, buf, l :: rest =>
    if goTrimSpace l == "." then .done buf rest
    else
      let size2 := size + (l.length : Int)
      if size2 > maxSize then .tooLarge (drain rest)
      else dataLoop maxSize size2 (buf ++ l) rest

/-- Line-ending normalization of the finished buffer
(smtp.go lines 395-398): collapse CRLF to LF, then lone CR to LF, then
expand LF to CRLF. -/
def collapseCRLF : List Char → List Char
  | '\r' :: '\n' :: t => '\n' :: collapseCRLF t
  | c :: t => c :: collapseCRLF t
  | [] => []

/-- normalizeCRLF applies the three ReplaceAll passes of
smtp.go lines 396-398. -/
def normalizeCRLF (s : String) : String :=
  let s1 := collapseCRLF s.toList
  let s2 := s1.map (fun c => if c == '\r' then '\n' else c)
  String.mk (s2.foldr (fun c acc => if c == '\n' then '\r' :: '\n' :: acc else c :: acc) [])

/-- MAIL FROM branch, embedded from smtp.go lines 322-332: the extracted
address is stored unconditionally; an empty extraction yields 501, anything
else 250 with no validity check. -/
def mailFromBranch (st : SessionSt) (line : String) : List String × SessionSt :=
  let a := extractAddress line
  let st2 := { st with mailFrom := a }
  if a = "" then (["501 5.1.7 Invalid sender address"], st2)
  else (["250 2.1.0 Ok"], st2)

/-- RCPT TO branch, embedded from smtp.go lines 334-345: the address must be
non-empty and pass isValidEmail, else 553. -/
def rcptToBranch (st : SessionSt) (line : String) : List String × SessionSt :=
  let addr := extractAddress line
  if addr = "" ∨ isValidEmail addr = false then (["553 5.1.3 Invalid recipient address"], st)
  else (["250 2.1.5 Ok"], { st with rcptTo := st.rcptTo ++ [addr] })

/-- Trailing command dispatch of the loop body (smtp.go lines 438-462,
label continueLoop): QUIT, RSET, NOOP, otherwise 502.  Reached normally
after the DATA prefix test fails, and by the goto after an oversized
message, in which case the line is still the DATA command line. -/
def tailDispatch (st : SessionSt) (line : String) : List String × SessionSt × Bool :=
  let up := goToUpper line
  if goHasPrefix up "QUIT" then (["221 2.0.0 Bye"], st, false)
  else if goHasPrefix up "RSET" then (["250 2.0.0 Ok"], { st with mailFrom := "", rcptTo := [] }, true)
  else if goHasPrefix up "NOOP" then (["250 2.0.0 Ok"], st, true)
  else (["502 5.5.2 Command not implemented"], st, true)

/-- Completion of a DATA transaction after the terminator
(smtp.go lines 394-435): parse the normalized message, obtain a token, and
submit; every failure writes its reply and returns (closing the
connection), success writes 250 and clears the envelope. -/
def dataCompletion (env : Env) (st : SessionSt) (buffer : String) (rem : List String) : StepOut :=
  let msg := normalizeCRLF buffer
  match env.parseMsg msg with
  | .error e => ⟨["550 5.6.0 Message parsing failed: " ++ e], st, rem, false⟩
  | .ok _ =>
    match env.authToken st.username st.password with
    | .error _ => ⟨["451 4.7.0 Temporary authentication failure"], st, rem, false⟩
    | .ok tok =>
      match env.sendMail tok msg with
      | .error e => ⟨["550 5.7.0 Delivery failed: " ++ e], st, rem, false⟩
      | .ok _ =>
        ⟨["250 2.0.0 Ok: queued as graphapi"], { st with mailFrom := "", rcptTo := [] }, rem, true⟩

/-- The 354 prompt written when DATA is accepted (smtp.go line 355). -/
def dataPrompt : String := "354 End data with <CR><LF>.<CR><LF>"

/-- DATA branch, embedded from smtp.go lines 347-436: require at least one
recipient, prompt 354, run the reading loop; an oversized message replies
552, clears the envelope and jumps to the trailing dispatch with the stale
DATA line; a read error returns silently; the terminator hands off to
dataCompletion. -/
def dataBranch (env : Env) (st : SessionSt) (line : String) (rest : List String) : StepOut :=
  if st.rcptTo.isEmpty then ⟨["503 5.5.1 No recipients specified"], st, rest, true⟩
  else
    match dataLoop env.maxMessageSize 0 "" rest with
    | .eof => ⟨[dataPrompt], st, [], false⟩
    | .tooLarge rem =>
      let st2 := { st with mailFrom := "", rcptTo := [] }
      let t := tailDispatch st2 line
      ⟨[dataPrompt,
        "552 5.3.4 Message too large (max " ++ toString env.maxMessageSize ++ " bytes)"] ++ t.1,
        t.2.1, rem, t.2.2⟩
    | .done buf rem =>
      let o := dataCompletion env st buf rem
      ⟨dataPrompt :: o.replies, o.st, o.rem, o.cont⟩

/-- Credential fallback and OAuth2 verification shared by both AUTH LOGIN
forms (smtp.go lines 282-310). -/
def finishAuthLogin (env : Env) (st : SessionSt) (username password : String)
    (pre : List String) (rem : List String) : StepOut :=
  if username == "" || password == "" then
    if env.fallbackUser == "" || env.fallbackPass == "" then
      ⟨pre ++ ["535 5.7.8 Authentication credentials invalid"],
        { st with username := username, password := password }, rem, false⟩
    else
      match env.authToken env.fallbackUser env.fallbackPass with
      | .error _ =>
        ⟨pre ++ ["535 5.7.8 Authentication failed"],
          { st with username := env.fallbackUser, password := env.fallbackPass }, rem, false⟩
      | .ok _ =>
        ⟨pre ++ ["235 2.7.0 Authentication successful"],
          { st with username := env.fallbackUser, password := env.fallbackPass, authenticated := true }, rem, true⟩
  else
    match env.authToken username password with
    | .error _ =>
      ⟨pre ++ ["535 5.7.8 Authentication failed"],
        { st with username := username, password := password }, rem, false⟩
    | .ok _ =>
      ⟨pre ++ ["235 2.7.0 Authentication successful"],
        { st with username := username, password := password, authenticated := true }, rem, true⟩

/-- AUTH LOGIN branch, embedded from smtp.go lines 210-311: a three-field
command carries the base64 username inline, otherwise both credentials are
prompted for with 334 challenges; base64 failures reply 501 and keep the
session open, a missing line during the exchange replies 421 and closes. -/
def authLoginBranch (env : Env) (st : SessionSt) (line : String) (rest : List String) : StepOut :=
  let parts := goFields line
  if parts.length = 3 then
    match decodeBase64WithError (goTrimSpace (parts.getD 2 "")) with
    | .error _ => ⟨["501 5.5.4 Invalid base64 encoding"], { st with username := "" }, rest, true⟩
    | .ok username =>
      match rest with
      | [] =>
        ⟨["334 UGFzc3dvcmQ6", "421 4.7.0 Connection error during authentication"],
          { st with username := username }, [], false⟩
      | passRaw :: rest2 =>
        match decodeBase64WithError (goTrimSpace passRaw) with
        | .error _ =>
          ⟨["334 UGFzc3dvcmQ6", "501 5.5.4 Invalid base64 encoding"],
            { st with username := username, password := "" }, rest2, true⟩
        | .ok password =>
          finishAuthLogin env { st with username := username, password := password }
            username password ["334 UGFzc3dvcmQ6"] rest2
  else
    match rest with
    | [] =>
      ⟨["334 VXNlcm5hbWU6", "421 4.7.0 Connection error during authentication"], st, [], false⟩
    | userRaw :: rest2 =>
      match decodeBase64WithError (goTrimSpace userRaw) with
      | .error _ =>
        ⟨["334 VXNlcm5hbWU6", "501 5.5.4 Invalid base64 encoding"],
          { st with username := "" }, rest2, true⟩
      | .ok username =>
        match rest2 with
        | [] =>
          ⟨["334 VXNlcm5hbWU6", "334 UGFzc3dvcmQ6",
            "421 4.7.0 Connection error during authentication"],
            { st with username := username }, [], false⟩
        | passRaw :: rest3 =>
          match decodeBase64WithError (goTrimSpace passRaw) with
          | .error _ =>
            ⟨["334 VXNlcm5hbWU6", "334 UGFzc3dvcmQ6", "501 5.5.4 Invalid base64 encoding"],
              { st with username := username, password := "" }, rest3, true⟩
          | .ok password =>
            finishAuthLogin env { st with username := username, password := password }
              username password ["334 VXNlcm5hbWU6", "334 UGFzc3dvcmQ6"] rest3

/-- One iteration of the command loop of handleSMTPConnection
(smtp.go lines 168-462), dispatching a raw received line against the
session state; later lines of the input are consumed by the AUTH exchange
and the DATA body. -/
def smtpStep (env : Env) (st : SessionSt) (raw : String) (rest : List String) : StepOut :=
  if raw.length > 512 then ⟨["500 5.5.1 Line too long"], st, rest, true⟩
  else
    let line := goTrimRightCRLF raw
    if line == "" then ⟨[], st, rest, true⟩
    else
      let up := goToUpper line
      if goHasPrefix up "EHLO" || goHasPrefix up "HELO" then
        ⟨["250-smtpRelay", "250 AUTH LOGIN"], st, rest, true⟩
      else if goHasPrefix up "AUTH LOGIN" then authLoginBranch env st line rest
      else if st.authenticated = false then
        ⟨["530 5.7.0 Authentication required"], st, rest, true⟩
      else if goHasPrefix up "MAIL FROM:" then
        let r := mailFromBranch st line
        ⟨r.1, r.2, rest, true⟩
      else if goHasPrefix up "RCPT TO:" then
        let r := rcptToBranch st line
        ⟨r.1, r.2, rest, true⟩
      else if goHasPrefix up "DATA" then dataBranch env st line rest
      else
        let t := tailDispatch st line
        ⟨t.1, t.2.1, rest, t.2.2⟩

/-- Command loop of handleSMTPConnection driven by fuel; exhausted input
models the read error of smtp.go lines 172-184 (421 then return).  Each
iteration consumes at least one input line, so a fuel of one more than the
input length never runs out before the input does. -/
def runAux (env : Env) : Nat → SessionSt → List String → List String
  | 0, _, _ => []
  | Nat.succ fuel, st, input =>
    match input with
    | [] => ["421 4.7.0 Service not available"]
    | raw :: rest =>
      let o := smtpStep env st raw rest
      if o.cont then o.replies ++ runAux env fuel o.st o.rem else o.replies

/-- handleSMTPConnection, embedded from smtp.go lines 142-463: the 220
greeting followed by the command loop over the received raw lines; the
result is the list of reply lines written to the client. -/
def handleSMTPConnection (env : Env) (input : List String) : List String :=
  "220 SMTP Relay Ready" :: runAux env (input.length + 1) initialSession input

/-- Parsed JSON of the token endpoint response together with the raw body,
as read by getOAuth2TokenWithExpiry (smtp.go lines 775-789). -/
structure TokenResponse where
  accessToken : String
  expiresIn : Int
  errorCode : String
  errorDesc : String
  rawBody : String
deriving Repr, DecidableEq

/-- Response classification of getOAuth2TokenWithExpiry
(smtp.go lines 791-803): an OAuth error field is surfaced with its
description, a missing access token is surfaced with the raw body. -/
def getOAuth2TokenWithExpiry (tr : TokenResponse) : Except String (String × Int) :=
  if tr.errorCode ≠ "" then .error ("OAuth2 error: " ++ tr.errorCode ++ " - " ++ tr.errorDesc)
  else if tr.accessToken = "" then .error ("no access token in response, body: " ++ tr.rawBody)
  else .ok (tr.accessToken, tr.expiresIn)

/-- Expiry instant stored by getCachedOAuth2Token (smtp.go line 735):
now plus the reported lifetime minus sixty seconds, with times modelled in
seconds. -/
def cachedTokenExpiresAt (now expiresIn : Int) : Int := now + (expiresIn - 60)

/-- Expiry instant as the spec describes it, for comparison: now plus the
larger of thirty seconds and the reported lifetime minus sixty seconds. -/
def specExpiresAt (now expiresIn : Int) : Int := now + max 30 (expiresIn - 60)

/-- Final HTTP response of a Graph submission, with bytes as a string. -/
structure HTTPResponse where
  statusCode : Nat
  body : String
deriving Repr, DecidableEq

/-- Response handling tail of sendMailGraphAPI (smtp.go lines 687-694): a
status of 300 or more produces an error embedding the status and the full
response body; the HTTP exchange itself is abstracted as its final
response. -/
def sendMailGraphAPI (resp : HTTPResponse) : Except String Unit :=
  if 300 ≤ resp.statusCode then
    .error ("Graph API error (status " ++ toString resp.statusCode ++ "): " ++ resp.body)
  else .ok ()

/-- Reply line written to the client when the Graph submission fails
(smtp.go line 422), formatting the error value into the text. -/
def deliveryFailedReply (e : String) : String := "550 5.7.0 Delivery failed: " ++ e

/-- One part as yielded by the mime/multipart lexer: the raw header values
and lexed parameters the walk reads, plus the part body. -/
structure RawPart where
  disposition : String
  contentType : String
  cte : String
  filenameParam : String
  ctNameParam : String
  content : String
deriving Repr, DecidableEq

/-- Attachment record built by the walk (smtp.go lines 503-507). -/
structure Attachment where
  filename : String
  contentTypeH : String
  contentB64 : String
deriving Repr, DecidableEq

/-- Multipart walk of parseSubjectBodyAndAttachments, embedded from
smtp.go lines 535-602: iterate the parts the top-level reader yields, stop
after 100 parts, classify by Content-Disposition; attachment parts are
transfer-decoded and re-encoded as base64 (decode failures fail the
message when strict, else skip; empty filename or content skips); every
other part is transfer-decoded into the body, setting the html flag when
its content type mentions html. -/
def walkParts (strict : Bool) : Nat → String → Bool → List Attachment → List RawPart →
    Except String (String × Bool × List Attachment)
  | _, body, isHTML, acc, [] => .ok (body, isHTML, acc)
  | count, body, isHTML, acc, p :: rest =>
    let count2 := count + 1
    if count2 > 100 then .ok (body, isHTML, acc)
    else if goHasPrefix p.disposition "attachment" then
      let filename :=
        if p.filenameParam == "" then (if p.ctNameParam == "" then "" else p.ctNameParam)
        else p.filenameParam
      let ctype := if p.contentType == "" then "application/octet-stream" else p.contentType
      match decodeMessage (goToLower p.cte) p.content with
      | .error e =>
        if strict then .error ("failed to decode attachment " ++ filename ++ ": " ++ e)
        else walkParts strict count2 body isHTML acc rest
      | .ok payload =>
        if filename == "" || ctype == "" || payload.length = 0 then
          walkParts strict count2 body isHTML acc rest
        else
          walkParts strict count2 body isHTML
            (acc ++ [⟨filename, ctype, encodeBase64 payload⟩]) rest
    else
      match decodeMessage (goToLower p.cte) p.content with
      | .error _ => walkParts strict count2 body isHTML acc rest
      | .ok payload =>
        let isHTML2 := isHTML || goContainsSub (goToLower p.contentType) "html"
        walkParts strict count2 payload isHTML2 acc rest

/-- MIME tree of a multipart message: a leaf part, or a nested multipart
part with its own header fields and children. -/
inductive MimeTree where
  | part (p : RawPart)
  | nested (hdr : RawPart) (children : List MimeTree)
deriving Repr

mutual
/-- Raw bytes of a subtree, abstracting the serialized inner body that the
top-level reader hands over as the content of a nested part. -/
def rawContent : MimeTree → String
  | .part p => p.content
  | .nested _ cs => rawContentList cs

/-- Concatenated raw bytes of a list of subtrees. -/
def rawContentList : List MimeTree → String
  | [] => ""
  | t :: ts => rawContent t ++ rawContentList ts
end

/-- What the top-level mime/multipart reader yields for a tree: each
immediate child is one part, and a nested multipart child appears as a
single opaque part whose content is its serialized interior. -/
def topLevelView : List MimeTree → List RawPart
  | [] => []
  | .part p :: ts => p :: topLevelView ts
  | .nested h cs :: ts => { h with content := rawContentList cs } :: topLevelView ts

/-- Attachment classification of one leaf as the walk performs it, used by
the claim-side depth-first collector. -/
def attachmentOf (p : RawPart) : Option Attachment :=
  if goHasPrefix p.disposition "attachment" then
    let filename :=
      if p.filenameParam == "" then (if p.ctNameParam == "" then "" else p.ctNameParam)
      else p.filenameParam
    let ctype := if p.contentType == "" then "application/octet-stream" else p.contentType
    match decodeMessage (goToLower p.cte) p.content with
    | .error _ => none
    | .ok payload =>
      if filename == "" || ctype == "" || payload.length = 0 then none
      else some ⟨filename, ctype, encodeBase64 payload⟩
  else none

mutual
/-- Depth-first attachment sequence as claim C8 describes the walk: recurse
into nested multipart parts and collect attachments in encounter order. -/
def specAttachments : MimeTree → List Attachment
  | .part p => (attachmentOf p).toList
  | .nested _ cs => specAttachmentsList cs

/-- Depth-first attachment sequence of a list of subtrees. -/
def specAttachmentsList : List MimeTree → List Attachment
  | [] => []
  | t :: ts => specAttachments t ++ specAttachmentsList ts
end

/-- Environment in which every collaborator succeeds, with a 1 MB-ish
message limit. -/
def envOk : Env :=
  { maxMessageSize := 1000000, fallbackUser := "", fallbackPass := "",
    authToken := fun _ _ => .ok "tok", parseMsg := fun _ => .ok (),
    sendMail := fun _ _ => .ok () }

/-- The succeeding environment with max_message_size set to 10, the
configuration of the oversized-message scenario. -/
def env10 : Env := { envOk with maxMessageSize := 10 }

/-- The succeeding environment with the Graph submission outcome
replaced. -/
def envWithSend (f : String → String → Except String Unit) : Env := { envOk with sendMail := f }

/-- The succeeding environment with the token-cache outcome replaced. -/
def envWithToken (f : String → String → Except String String) : Env :=
  { envOk with authToken := f }

/-- The succeeding environment with the message-parse outcome replaced. -/
def envWithParse (f : String → Except String Unit) : Env := { envOk with parseMsg := f }

/-- Authenticated session with a full envelope. -/
def stEnvelope : SessionSt :=
  { username := "user@ex.com", password := "pw", authenticated := true,
    mailFrom := "a@b.c", rcptTo := ["r@x.y"] }

/-- Authenticated session with one recipient and no MAIL FROM. -/
def stNoMailFrom : SessionSt := { stEnvelope with mailFrom := "" }

/-- Inner multipart header part of the nested-attachment example. -/
def hdrInner : RawPart := ⟨"", "multipart/mixed; boundary=\"inner\"", "", "", "", ""⟩

/-- Attachment leaf named a.txt, nested inside the inner multipart. -/
def attPartA : RawPart :=
  ⟨"attachment; filename=\"a.txt\"", "text/plain", "", "a.txt", "", "AAAA"⟩

/-- Attachment leaf named b.txt at the top level. -/
def attPartB : RawPart :=
  ⟨"attachment; filename=\"b.txt\"", "text/plain", "", "b.txt", "", "BBBB"⟩

/-- MIME tree with an attachment inside a nested multipart part followed by
a top-level attachment, the shape of the repository's own nested-multipart
tests. -/
def demoTree : List MimeTree :=
  [MimeTree.nested hdrInner [MimeTree.part attPartA], MimeTree.part attPartB]

end AzureSMTP

namespace AzureSMTP

/-- Claim C1, counterexample: the DATA loop appends the received line
verbatim, so the dot-stuffed line keeps both leading dots and the buffer
differs from the un-stuffed original even after normalization. -/
theorem C1_counterexample :
    dataLoop 1000000 0 "" ["..example.com is a domain\r\n", ".\r\n"] =
      .done "..example.com is a domain\r\n" [] ∧
    normalizeCRLF "..example.com is a domain\r\n" ≠
      normalizeCRLF ".example.com is a domain\r\n" := by decide

/-- Claim C3 (code evaluated at the failing input): an oversized DATA body
is answered with 552 immediately followed by a spurious
502 Command not implemented, produced by the goto that re-dispatches the
stale DATA command line; the envelope is cleared and the next MAIL FROM is
accepted. -/
theorem C3_oversize_behavior :
    handleSMTPConnection env10
      ["EHLO x\r\n", "AUTH LOGIN\r\n", "dXNlckBleC5jb20=\r\n", "cHc=\r\n",
       "MAIL FROM:<a@b.c>\r\n", "RCPT TO:<r@x.y>\r\n", "DATA\r\n",
       "12345678901234567890\r\n", ".\r\n", "MAIL FROM:<a@b.c>\r\n", "QUIT\r\n"] =
      ["220 SMTP Relay Ready", "250-smtpRelay", "250 AUTH LOGIN", "334 VXNlcm5hbWU6",
       "334 UGFzc3dvcmQ6", "235 2.7.0 Authentication successful", "250 2.1.0 Ok",
       "250 2.1.5 Ok", "354 End data with <CR><LF>.<CR><LF>",
       "552 5.3.4 Message too large (max 10 bytes)", "502 5.5.2 Command not implemented",
       "250 2.1.0 Ok", "221 2.0.0 Bye"] := by decide

/-- Claim C4, counterexample: with a reported lifetime of 10 seconds the
stored expiry lies 50 seconds in the past, not at least 30 seconds ahead,
and differs from the floor formula the claim states. -/
theorem C4_counterexample :
    cachedTokenExpiresAt 1000 10 = 950 ∧
    cachedTokenExpiresAt 1000 10 - 1000 < 30 ∧
    cachedTokenExpiresAt 1000 10 ≠ specExpiresAt 1000 10 := by decide

/-- Claim C5, counterexample: in an authenticated session whose mail_from
is empty but which holds one recipient, DATA is accepted, the body is read
and the message is submitted; the full session shows the state is reached
without any MAIL FROM command. -/
theorem C5_counterexample :
    stNoMailFrom.authenticated = true ∧ stNoMailFrom.mailFrom = "" ∧
    (smtpStep envOk stNoMailFrom "DATA\r\n" ["hi\r\n", ".\r\n"]).replies =
      [dataPrompt, "250 2.0.0 Ok: queued as graphapi"] ∧
    handleSMTPConnection envOk
      ["EHLO x\r\n", "AUTH LOGIN\r\n", "dXNlckBleC5jb20=\r\n", "cHc=\r\n",
       "RCPT TO:<r@x.y>\r\n", "DATA\r\n", "hi\r\n", ".\r\n", "QUIT\r\n"] =
      ["220 SMTP Relay Ready", "250-smtpRelay", "250 AUTH LOGIN", "334 VXNlcm5hbWU6",
       "334 UGFzc3dvcmQ6", "235 2.7.0 Authentication successful", "250 2.1.5 Ok",
       "354 End data with <CR><LF>.<CR><LF>", "250 2.0.0 Ok: queued as graphapi",
       "221 2.0.0 Bye"] := by decide

/-- Claim C6, counterexample: MAIL FROM with the address abc, which fails
the claimed validity check, is answered 250 rather than 501; and the
implemented check accepts an address with two at-signs, contradicting the
exactly-one-at-sign clause. -/
theorem C6_counterexample :
    (smtpStep envOk stEnvelope "MAIL FROM:<abc>\r\n" []).replies = ["250 2.1.0 Ok"] ∧
    specValidEmail "abc" = false ∧
    isValidEmail "a@b@c.d" = true ∧ specValidEmail "a@b@c.d" = false := by decide

/-- Claim C7 (code evaluated at the failing input): an AUTH PLAIN command
is not recognized; the unauthenticated gate answers it with
530 Authentication required and no 334 challenge is ever issued, while EHLO
advertises AUTH LOGIN only. -/
theorem C7_auth_plain_rejected :
    handleSMTPConnection envOk ["EHLO x\r\n", "AUTH PLAIN AGJvYgBwdw==\r\n"] =
      ["220 SMTP Relay Ready", "250-smtpRelay", "250 AUTH LOGIN",
       "530 5.7.0 Authentication required", "421 4.7.0 Service not available"] := by decide

/-- Claim C8 (code evaluated at the failing input): on a tree whose first
top-level part is a nested multipart containing attachment a.txt, the walk
treats that part as an opaque body part, so only the top-level b.txt is
produced, while the depth-first collection the claim describes yields
a.txt before b.txt. -/
theorem C8_nested_multipart_flat :
    walkParts false 0 "" false [] (topLevelView demoTree) =
      .ok ("AAAA", false, [⟨"b.txt", "text/plain", "QkJCQg=="⟩]) ∧
    specAttachmentsList demoTree =
      [⟨"a.txt", "text/plain", "QUFBQQ=="⟩, ⟨"b.txt", "text/plain", "QkJCQg=="⟩] ∧
    ([(⟨"b.txt", "text/plain", "QkJCQg=="⟩ : Attachment)] ≠
      [⟨"a.txt", "text/plain", "QUFBQQ=="⟩, ⟨"b.txt", "text/plain", "QkJCQg=="⟩]) :=
  ⟨rfl, rfl, by decide⟩

/-- Claim C2, counterexample: a Graph failure response with body
oauth_secret_payload produces an error embedding that body, and the 550
reply written to the client contains it verbatim; the token endpoint error
returned by the fetch likewise embeds the raw response body. -/
theorem C2_counterexample :
    sendMailGraphAPI ⟨400, "oauth_secret_payload"⟩ =
      .error "Graph API error (status 400): oauth_secret_payload" ∧
    (smtpStep (envWithSend (fun _ _ => sendMailGraphAPI ⟨400, "oauth_secret_payload"⟩))
        stEnvelope "DATA\r\n" ["hi\r\n", ".\r\n"]).replies =
      [dataPrompt,
       "550 5.7.0 Delivery failed: Graph API error (status 400): oauth_secret_payload"] ∧
    goContainsSub
      "550 5.7.0 Delivery failed: Graph API error (status 400): oauth_secret_payload"
      "oauth_secret_payload" = true ∧
    getOAuth2TokenWithExpiry ⟨"", 0, "", "", "token_endpoint_secret_body"⟩ =
      .error "no access token in response, body: token_endpoint_secret_body" :=
  ⟨rfl, by decide, by decide, rfl⟩

end AzureSMTP

namespace AzureSMTP

/-- Helper: the last-index search returns none exactly when the character
does not occur. -/
theorem lastIdxAux_eq_none_iff (c : Char) (cs : List Char) :
    lastIdxAux c cs = none ↔ c ∉ cs := by
  induction cs with
  | nil => simp [lastIdxAux]
  | cons d ds ih =>
    cases h : lastIdxAux c ds with
    | some i =>
      have hmem : c ∈ ds := by
        by_contra hc
        have h2 := ih.mpr hc
        rw [h] at h2
        cases h2
      simp [lastIdxAux, h, hmem]
    | none =>
      have hds : c ∉ ds := ih.mp h
      by_cases hd : d = c
      · simp [lastIdxAux, h, hd]
      · simp only [lastIdxAux, h]
        rw [if_neg (by simp [hd])]
        constructor
        · intro _
          simp only [List.mem_cons, not_or]
          exact ⟨fun hcd => hd hcd.symm, hds⟩
        · intro _
          rfl

/-- Helper: the last-index search returns an index exactly when the list
splits around the character with no later occurrence. -/
theorem lastIdxAux_eq_some_iff (c : Char) (cs : List Char) (i : Nat) :
    lastIdxAux c cs = some i ↔
      ∃ l d : List Char, cs = l ++ c :: d ∧ l.length = i ∧ c ∉ d := by
  induction cs generalizing i with
  | nil =>
    simp only [lastIdxAux]
    constructor
    · intro h; cases h
    · rintro ⟨l, d, h, -, -⟩
      exact absurd h (by simp)
  | cons d0 ds ih =>
    cases h : lastIdxAux c ds with
    | some j =>
      obtain ⟨l0, d1, hds, hlen, hnot⟩ := (ih j).mp h
      constructor
      · intro hsome
        simp only [lastIdxAux, h] at hsome
        injection hsome with hij
        refine ⟨d0 :: l0, d1, ?_, ?_, hnot⟩
        · rw [hds]; rfl
        · simp [hlen]; omega
      · rintro ⟨l, d2, hcons, hlenl, hnotd⟩
        cases l with
        | nil =>
          injection hcons with h1 h2
          subst h2
          exact absurd ((lastIdxAux_eq_none_iff c ds).mpr hnotd) (by simp [h])
        | cons e l2 =>
          injection hcons with h1 h2
          have h3 := (ih l2.length).mpr ⟨l2, d2, h2, rfl, hnotd⟩
          rw [h] at h3
          injection h3 with h4
          simp only [lastIdxAux, h]
          simp only [List.length_cons] at hlenl
          rw [← hlenl, h4]
    | none =>
      have hds : c ∉ ds := (lastIdxAux_eq_none_iff c ds).mp h
      by_cases hd : d0 = c
      · simp only [lastIdxAux, h]
        rw [if_pos (by simp [hd])]
        constructor
        · intro hsome
          injection hsome with hij
          exact ⟨[], ds, by rw [hd]; rfl, by simp [← hij], hds⟩
        · rintro ⟨l, d2, hcons, hlenl, hnotd⟩
          cases l with
          | nil => simp at hlenl; rw [hlenl]
          | cons e l2 =>
            injection hcons with h1 h2
            exact absurd (h2 ▸ (List.mem_append.mpr (Or.inr (List.mem_cons_self c d2)))) hds
      · simp only [lastIdxAux, h]
        rw [if_neg (by simp [hd])]
        constructor
        · intro hsome; cases hsome
        · rintro ⟨l, d2, hcons, hlenl, hnotd⟩
          cases l with
          | nil =>
            injection hcons with h1 h2
            exact absurd h1 hd
          | cons e l2 =>
            injection hcons with h1 h2
            exact absurd (h2 ▸ (List.mem_append.mpr (Or.inr (List.mem_cons_self c d2)))) hds

/-- Helper characterization of isValidEmail: the address splits at its last
at-sign into a non-empty local part of at most 64 characters and a
non-empty domain of at most 253 characters containing a dot, with the whole
address at most 254 characters. -/
theorem isValidEmail_iff_decomp (email : String) :
    isValidEmail email = true ↔
      ∃ l d : List Char, email.toList = l ++ '@' :: d ∧ d.contains '@' = false ∧
        1 ≤ l.length ∧ l.length ≤ 64 ∧ 1 ≤ d.length ∧ d.length ≤ 253 ∧
        d.contains '.' = true ∧ email.toList.length ≤ 254 := by
  unfold isValidEmail lastIndexOfChar
  dsimp only
  split_ifs with h254
  · constructor
    · intro hv; exact hv.elim
    · rintro ⟨l, d, hdec, -, -, -, -, -, -, hlen254⟩
      have hpos : 0 < email.toList.length := by rw [hdec]; simp
      omega
  · rcases h : lastIdxAux '@' email.toList with _ | i
    · have hmem : '@' ∉ email.toList := (lastIdxAux_eq_none_iff _ _).mp h
      constructor
      · intro hv; exact Bool.noConfusion hv
      · rintro ⟨l, d, hdec, -, -, -, -, -, -, -⟩
        refine absurd ?_ hmem
        rw [hdec]
        exact List.mem_append.mpr (Or.inr (List.mem_cons_self _ _))
    · obtain ⟨l0, d0, hsplit, hlen0, hnot0⟩ := (lastIdxAux_eq_some_iff '@' email.toList i).mp h
      have htake : email.toList.take i = l0 := by
        rw [hsplit, ← hlen0]; exact List.take_left _ _
      have hsplit2 : email.toList = (l0 ++ ['@']) ++ d0 := by rw [hsplit]; simp
      have hip : i + 1 = (l0 ++ ['@']).length := by simp [← hlen0]
      have hdrop : email.toList.drop (i + 1) = d0 := by
        rw [hsplit2, hip]; exact List.drop_left _ _
      have hn : email.toList.length = l0.length + d0.length + 1 := by
        rw [hsplit]; simp; omega
      constructor
      · intro hv
        dsimp only at hv
        split_ifs at hv with h1 h2
        push_neg at h1 h2
        rw [htake] at h2
        rw [hdrop] at h2 hv
        refine ⟨l0, d0, hsplit, by simpa [List.elem_iff] using hnot0, by omega, by omega,
          by omega, by omega, hv, by omega⟩
      · rintro ⟨l, d, hdec, hnotd, hl1, hl64, hd1, hd253, hdot, hlen254⟩
        have hsome : lastIdxAux '@' email.toList = some l.length :=
          (lastIdxAux_eq_some_iff '@' email.toList l.length).mpr
            ⟨l, d, hdec, rfl, by simpa [List.elem_iff] using hnotd⟩
        rw [h] at hsome
        injection hsome with hil
        have hld : email.toList.length = l.length + d.length + 1 := by
          rw [hdec]; simp; omega
        have hl0 : l = l0 := by
          rw [← htake, hdec, hil]; exact (List.take_left _ _).symm
      -- wait direction: htake : take i cs = l0; with hil : i = l.length, hdec, take gives l
        have hd0 : d = d0 := by
          have : email.toList.drop (i + 1) = d := by
            rw [hdec, hil]
            have h9 : l.length + 1 = (l ++ ['@']).length := by simp
            rw [show l ++ '@' :: d = (l ++ ['@']) ++ d by simp, h9]
            exact List.drop_left _ _
          rw [this] at hdrop; exact hdrop
        dsimp only
        split_ifs with h1 h2
        · exfalso; omega
        · exfalso
          push_neg at h1
          rw [htake, hdrop] at h2
          rcases h2 with h2 | h2 <;> omega
        · rw [hdrop, ← hd0]; exact hdot

/-- Helper: character list of a string concatenation. -/
theorem toList_append (a b : String) : (a ++ b).toList = a.toList ++ b.toList := by
  cases a; cases b; rfl

/-- Helper: a list is an infix of itself. -/
theorem listInfix_self (t : List Char) : listInfix t t = true := by
  cases t with
  | nil => rfl
  | cons c cs =>
    simp only [listInfix, Bool.or_eq_true]
    left
    rw [List.isPrefixOf_iff_prefix]

/-- Helper: an infix survives prepending. -/
theorem listInfix_append_left (pre t l : List Char) (h : listInfix t l = true) :
    listInfix t (pre ++ l) = true := by
  induction pre with
  | nil => simpa using h
  | cons c cs ih =>
    simp only [List.cons_append, listInfix, Bool.or_eq_true]
    right
    exact ih

/-- Claim C1 as amended: in the DATA phase every non-terminator line is
appended to the message buffer verbatim, leading dot included, and counted
with its full length; no dot-unstuffing is performed, so a dot-stuffed
buffer does not normalize to the un-stuffed original. -/
theorem C1_amended (m s : Int) (buf l : String) (rest : List String)
    (hterm : (goTrimSpace l == ".") = false)
    (hsize : s + (l.length : Int) ≤ m) :
    dataLoop m s buf (l :: rest) = dataLoop m (s + (l.length : Int)) (buf ++ l) rest := by
  rw [dataLoop, hterm]
  simp only [Bool.false_eq_true, if_false]
  rw [if_neg (by omega)]

/-- Claim C5 as amended: DATA is accepted (the 354 prompt is sent and the
body is read) exactly when the session is authenticated and at least one
recipient is recorded; the state of mail_from is not consulted, an
unauthenticated DATA gets 530 and an authenticated DATA without recipients
gets 503. -/
theorem C5_amended (env : Env) (st : SessionSt) (rest : List String) :
    (st.authenticated = false →
      smtpStep env st "DATA\r\n" rest = ⟨["530 5.7.0 Authentication required"], st, rest, true⟩) ∧
    (st.authenticated = true → st.rcptTo = [] →
      smtpStep env st "DATA\r\n" rest = ⟨["503 5.5.1 No recipients specified"], st, rest, true⟩) ∧
    (st.authenticated = true → st.rcptTo ≠ [] →
      (smtpStep env st "DATA\r\n" rest).replies.head? = some dataPrompt) := by
  have hstep : smtpStep env st "DATA\r\n" rest =
      if st.authenticated = false then ⟨["530 5.7.0 Authentication required"], st, rest, true⟩
      else dataBranch env st "DATA" rest := rfl
  refine ⟨?_, ?_, ?_⟩
  · intro h; rw [hstep, if_pos h]
  · intro h hr
    rw [hstep, if_neg (by simp [h]), dataBranch]
    rw [if_pos (by simp [hr])]
  · intro h hr
    rw [hstep, if_neg (by simp [h]), dataBranch]
    rw [if_neg (by simp [List.isEmpty_iff, hr])]
    cases hd : dataLoop env.maxMessageSize 0 "" rest with
    | eof => rfl
    | tooLarge rem => rfl
    | done buf rem => rfl

/-- Claim C10: after the DATA terminator the session continues only when
parsing, token acquisition and Graph submission all succeed, replying 250;
every failure path writes exactly one reply - 550 5.6.0 for a parse
failure, 451 4.7.0 for a token failure, 550 5.7.0 for a delivery failure -
and sets the continue flag to false, upon which the command loop stops
reading further commands, closing the connection. -/
theorem C10_data_failure_paths (env : Env) (st : SessionSt) (buffer : String)
    (rem : List String) :
    ((dataCompletion env st buffer rem).cont = true ↔
      (env.parseMsg (normalizeCRLF buffer) = .ok () ∧
        ∃ tok, env.authToken st.username st.password = .ok tok ∧
          env.sendMail tok (normalizeCRLF buffer) = .ok ())) ∧
    ((dataCompletion env st buffer rem).cont = true →
      (dataCompletion env st buffer rem).replies = ["250 2.0.0 Ok: queued as graphapi"]) ∧
    ((dataCompletion env st buffer rem).cont = false →
      ∃ r, (dataCompletion env st buffer rem).replies = [r] ∧
        (goHasPrefix r "550 5.6.0 Message parsing failed: " = true ∨
          r = "451 4.7.0 Temporary authentication failure" ∨
          goHasPrefix r "550 5.7.0 Delivery failed: " = true)) ∧
    (∀ fuel raw inputRest, (smtpStep env st raw inputRest).cont = false →
      runAux env (fuel + 1) st (raw :: inputRest) = (smtpStep env st raw inputRest).replies) := by
  have hpre : ∀ p e : String, goHasPrefix (p ++ e) p = true := by
    intro p e
    unfold goHasPrefix
    rw [toList_append, List.isPrefixOf_iff_prefix]
    exact List.prefix_append _ _
  have hrun : ∀ fuel raw inputRest, (smtpStep env st raw inputRest).cont = false →
      runAux env (fuel + 1) st (raw :: inputRest) = (smtpStep env st raw inputRest).replies := by
    intro fuel raw inputRest hc
    rw [runAux]
    simp only [hc]
    rw [if_neg (by simp)]
  cases hp : env.parseMsg (normalizeCRLF buffer) with
  | error e =>
    have hred : dataCompletion env st buffer rem =
        ⟨["550 5.6.0 Message parsing failed: " ++ e], st, rem, false⟩ := by
      simp only [dataCompletion, hp]
    refine ⟨?_, ?_, ?_, hrun⟩
    · rw [hred]
      constructor
      · intro hc; simp at hc
      · rintro ⟨hp2, -⟩
        simp at hp2
    · rw [hred]; intro hc; simp at hc
    · rw [hred]; intro _
      exact ⟨_, rfl, Or.inl (hpre "550 5.6.0 Message parsing failed: " e)⟩
  | ok u =>
    cases u
    cases ht : env.authToken st.username st.password with
    | error e =>
      have hred : dataCompletion env st buffer rem =
          ⟨["451 4.7.0 Temporary authentication failure"], st, rem, false⟩ := by
        simp only [dataCompletion, hp, ht]
      refine ⟨?_, ?_, ?_, hrun⟩
      · rw [hred]
        constructor
        · intro hc; simp at hc
        · rintro ⟨-, tok2, htok2, -⟩
          simp at htok2
      · rw [hred]; intro hc; simp at hc
      · rw [hred]; intro _
        exact ⟨_, rfl, Or.inr (Or.inl rfl)⟩
    | ok tok =>
      cases hs : env.sendMail tok (normalizeCRLF buffer) with
      | error e =>
        have hred : dataCompletion env st buffer rem =
            ⟨["550 5.7.0 Delivery failed: " ++ e], st, rem, false⟩ := by
          simp only [dataCompletion, hp, ht, hs]
        refine ⟨?_, ?_, ?_, hrun⟩
        · rw [hred]
          constructor
          · intro hc; simp at hc
          · rintro ⟨-, tok2, htok2, hsend2⟩
            injection htok2 with htok3
            subst htok3
            rw [hs] at hsend2
            simp at hsend2
        · rw [hred]; intro hc; simp at hc
        · rw [hred]; intro _
          exact ⟨_, rfl, Or.inr (Or.inr (hpre "550 5.7.0 Delivery failed: " e))⟩
      | ok v =>
        cases v
        have hred : dataCompletion env st buffer rem =
            ⟨["250 2.0.0 Ok: queued as graphapi"],
              { st with mailFrom := "", rcptTo := [] }, rem, true⟩ := by
          simp only [dataCompletion, hp, ht, hs]
        refine ⟨?_, ?_, ?_, hrun⟩
        · rw [hred]
          exact ⟨fun _ => ⟨rfl, tok, rfl, hs⟩, fun _ => rfl⟩
        · rw [hred]; intro _; rfl
        · rw [hred]; intro hc; simp at hc

/-- Claim C4 as amended: the stored expiry is now plus expires_in minus 60
seconds with no 30-second floor; it matches the floored formula only when
expires_in is at least 90 seconds, and any lifetime of at most 60 seconds
is stored already expired. -/
theorem C4_amended (now expiresIn : Int) :
    (cachedTokenExpiresAt now expiresIn = specExpiresAt now expiresIn ↔ 90 ≤ expiresIn) ∧
    (expiresIn ≤ 60 → cachedTokenExpiresAt now expiresIn ≤ now) := by
  unfold cachedTokenExpiresAt specExpiresAt
  constructor
  · rw [max_def]
    split_ifs with h
    · constructor <;> intro <;> omega
    · constructor <;> intro <;> omega
  · intro h; omega

/-- Claim C2 as amended: a final Graph failure is surfaced to the client as
a 550 reply that embeds the Graph error text including the raw response
body, for every failing response; the token-failure replies, by contrast,
are fixed strings independent of the upstream error. -/
theorem C2_amended :
    (∀ resp : HTTPResponse, 300 ≤ resp.statusCode →
      ∃ e, sendMailGraphAPI resp = .error e ∧
        goContainsSub (deliveryFailedReply e) resp.body = true) ∧
    (∀ e : String,
      (smtpStep (envWithSend (fun _ _ => .error e)) stEnvelope "DATA\r\n"
        ["hi\r\n", ".\r\n"]).replies = [dataPrompt, deliveryFailedReply e]) ∧
    (∀ e : String,
      (smtpStep (envWithToken (fun _ _ => .error e)) stEnvelope "DATA\r\n"
        ["hi\r\n", ".\r\n"]).replies =
        [dataPrompt, "451 4.7.0 Temporary authentication failure"]) := by
  refine ⟨?_, ?_, ?_⟩
  · intro resp h
    refine ⟨"Graph API error (status " ++ toString resp.statusCode ++ "): " ++ resp.body, ?_, ?_⟩
    · unfold sendMailGraphAPI
      rw [if_pos h]
    · unfold deliveryFailedReply goContainsSub
      simp only [toList_append]
      exact listInfix_append_left _ _ _ (listInfix_append_left _ _ _ (listInfix_self _))
  · intro e; rfl
  · intro e; rfl

/-- Claim C6 as amended: MAIL FROM is accepted whenever address extraction
yields any non-empty string, with no validity check; RCPT TO is accepted
exactly for non-empty addresses passing isValidEmail; and isValidEmail
splits at the last at-sign (so several at-signs are allowed), requiring
length at most 254, local part 1-64, domain 1-253 with a dot. -/
theorem C6_amended :
    (∀ st line, (mailFromBranch st line).1 = ["250 2.1.0 Ok"] ↔ extractAddress line ≠ "") ∧
    (∀ st line, (rcptToBranch st line).1 = ["250 2.1.5 Ok"] ↔
      (extractAddress line ≠ "" ∧ isValidEmail (extractAddress line) = true)) ∧
    (∀ email : String, isValidEmail email = true ↔
      ∃ l d : List Char, email.toList = l ++ '@' :: d ∧ d.contains '@' = false ∧
        1 ≤ l.length ∧ l.length ≤ 64 ∧ 1 ≤ d.length ∧ d.length ≤ 253 ∧
        d.contains '.' = true ∧ email.toList.length ≤ 254) := by
  refine ⟨?_, ?_, isValidEmail_iff_decomp⟩
  · intro st line
    unfold mailFromBranch
    by_cases h : extractAddress line = ""
    · simp [h]
    · simp [h]
  · intro st line
    unfold rcptToBranch
    by_cases h : extractAddress line = "" ∨ isValidEmail (extractAddress line) = false
    · rw [if_pos h]
      constructor
      · intro hh; simp at hh
      · rintro ⟨h1, h2⟩
        rcases h with h | h
        · exact absurd h h1
        · rw [h2] at h; cases h
    · rw [if_neg h]
      push_neg at h
      constructor
      · intro _
        exact ⟨h.1, by
          rcases hb : isValidEmail (extractAddress line) with _ | _
          · exact absurd hb h.2
          · rfl⟩
      · intro _; rfl

/-- Witness for C1_amended at a concrete dot-stuffed line. -/
theorem C1_amended_witness :
    (goTrimSpace ".x\r\n" == ".") = false ∧
    (0 : Int) + (String.length ".x\r\n" : Int) ≤ 100 ∧
    dataLoop 100 0 "" [".x\r\n", ".\r\n"] =
      dataLoop 100 (0 + (String.length ".x\r\n" : Int)) ("" ++ ".x\r\n") [".\r\n"] :=
  ⟨by decide, by decide, C1_amended 100 0 "" ".x\r\n" [".\r\n"] (by decide) (by decide)⟩

/-- Witness for C2_amended at a concrete failing Graph response. -/
theorem C2_amended_witness :
    ∃ e, sendMailGraphAPI ⟨503, "upstream-response-body"⟩ = .error e ∧
      goContainsSub (deliveryFailedReply e) "upstream-response-body" = true :=
  C2_amended.1 ⟨503, "upstream-response-body"⟩ (by decide)

/-- Witness for C4_amended at the short lifetime of the claim. -/
theorem C4_amended_witness : cachedTokenExpiresAt 1000 10 ≤ 1000 :=
  (C4_amended 1000 10).2 (by decide)

/-- Witness for C5_amended at a concrete authenticated session. -/
theorem C5_amended_witness :
    (smtpStep envOk stEnvelope "DATA\r\n" ["hi\r\n", ".\r\n"]).replies.head? =
      some dataPrompt :=
  (C5_amended envOk stEnvelope ["hi\r\n", ".\r\n"]).2.2 rfl (by decide)

/-- Witness for C10_data_failure_paths at a concrete parse failure. -/
theorem C10_data_failure_paths_witness :
    ∃ r, (dataCompletion (envWithParse (fun _ => .error "boom")) stEnvelope "x\r\n"
        []).replies = [r] ∧
      (goHasPrefix r "550 5.6.0 Message parsing failed: " = true ∨
        r = "451 4.7.0 Temporary authentication failure" ∨
        goHasPrefix r "550 5.7.0 Delivery failed: " = true) :=
  (C10_data_failure_paths (envWithParse (fun _ => .error "boom")) stEnvelope "x\r\n"
    []).2.2.1 (by decide)


end AzureSMTP
